import Mathlib

/-!
# sql-paginator: a verification development

A shallow embedding of `paginator.go` (`QueryPaginated`) and `utils.go`
(`GetPageAndLimitParams`).

* Go's `int` is modelled on a 64-bit platform: values are mathematical integers and every
  arithmetic operation is followed by `wrapInt`, the two's-complement reduction to
  `[-2^63, 2^63)`.  Integer division truncates toward zero and faults on a zero divisor.
* The database is an oracle (`DB`): what `QueryContext` and `QueryRowContext(..).Scan` answer
  for a given query text and bind parameters.  `QueryPaginated` returns its outcome together
  with the trace of the effects it performed, in order.
* Library functions (`strconv.Atoi`, `url.Values.Get`, `fmt.Sprintf("%d")`) are modelled after
  the Go standard library.
-/

set_option linter.dupNamespace false

namespace Paginator

/-! ## Go `int` arithmetic (64-bit) -/

/-- Smallest value of Go's `int` on a 64-bit platform, `-2^63`. -/
def minInt : Int := -9223372036854775808

/-- Largest value of Go's `int` on a 64-bit platform, `2^63 - 1`. -/
def maxInt : Int := 9223372036854775807

/-- Two's-complement reduction of a mathematical integer to the range of `int`. -/
def wrapInt (x : Int) : Int :=
  (x + 9223372036854775808) % 18446744073709551616 - 9223372036854775808

/-- Go's `a + b` on `int`. -/
def goAdd (a b : Int) : Int := wrapInt (a + b)

/-- Go's `a - b` on `int`. -/
def goSub (a b : Int) : Int := wrapInt (a - b)

/-- Go's `a * b` on `int`. -/
def goMul (a b : Int) : Int := wrapInt (a * b)

/-- Go's `a / b` on `int`: truncated division; `none` is the run-time panic
"integer divide by zero".  (`minInt / -1` does not panic, it wraps to `minInt`.) -/
def goDiv (a b : Int) : Option Int :=
  if b = 0 then none else some (wrapInt (Int.tdiv a b))

/-! ## Data model of `paginator.go` -/

/-- A Go slice value as far as its contents and nil-ness are concerned: `none` is the nil
slice, `some xs` a non-nil slice with elements `xs`. -/
abbrev Slice (T : Type) := Option (List T)

/-- Go's `make([]T, 0)`: an empty, non-nil slice. -/
def Slice.make0 {T : Type} : Slice T := some []

/-- Go's `append(s, x)`. -/
def Slice.append {T : Type} : Slice T → T → Slice T
  | none, x => some [x]
  | some xs, x => some (xs ++ [x])

/-- Go's `len(s)`. -/
def Slice.len {T : Type} : Slice T → Nat
  | none => 0
  | some xs => xs.length

/-- The struct `Page[T]`. -/
structure Page (T : Type) where
  Items : Slice T
  Page : Int
  Limit : Int
  Total : Int
  TotalPages : Int
  deriving DecidableEq

/-- A bind parameter (Go `any`): either an `int`, as the ones `QueryPaginated` appends, or
some other caller-supplied value. -/
inductive Arg (α : Type) where
  | int (n : Int)
  | val (a : α)
  deriving DecidableEq

/-- The `*sql.Rows` a successful `QueryContext` hands back: the rows that `Next` delivers, in
order, and the error `Err()` reports once `Next` has returned false (`none` when the
stream came to its normal end). -/
structure Rows (Row Err : Type) where
  pending : List Row
  lasterr : Option Err

/-- The database seen through `*sql.DB`: the answer to `QueryContext(ctx, text, args...)` and
to `QueryRowContext(ctx, text, args...).Scan(&n)` with `n` an `int`. -/
structure DB (α Row Err : Type) where
  QueryContext : String → List (Arg α) → Except Err (Rows Row Err)
  QueryRowContext : String → List (Arg α) → Except Err Int

/-- The effects `QueryPaginated` performs. -/
inductive Event (α Row : Type) where
  /-- The call `p.DB.QueryContext(context, text, args...)`. -/
  | query (text : String) (args : List (Arg α))
  /-- The call `scan(rows)` with the stream positioned on `row`. -/
  | scan (row : Row)
  /-- The call `p.DB.QueryRowContext(context, text, args...).Scan(&totalRows)`. -/
  | queryRow (text : String) (args : List (Arg α))
  /-- The deferred `rows.Close()`. -/
  | close
  deriving DecidableEq

/-- How a call of `QueryPaginated` ends: it returns the pair `(*Page[T], error)`, each
component possibly nil (`none`), or it panics. -/
inductive Outcome (T Err : Type) where
  | returned (page : Option (Page T)) (err : Option Err)
  | panicked
  deriving DecidableEq

/-- Outcome and effect trace of one call. -/
structure Run (α Row T Err : Type) where
  outcome : Outcome T Err
  trace : List (Event α Row)

/-- The loop `for rows.Next() { item, err := scan(rows); if err != nil { return nil, err };
results = append(results, item) }` over the rows still to be delivered: the error that left
the loop early or the final `results`, and the `scan` calls made. -/
def scanRows {α Row T Err : Type} (scan : Row → Except Err T) :
    List Row → Slice T → Except Err (Slice T) × List (Event α Row)
  | [], results => (.ok results, [])
  | r :: rest, results =>
    match scan r with
    | .error err => (.error err, [.scan r])
    | .ok item =>
      let next := scanRows scan rest (results.append item)
      (next.1, .scan r :: next.2)

/-- The text of the paged query: `query + fmt.Sprintf(" OFFSET $%d LIMIT $%d", n+1, n+2)`
where `n = len(args)`. -/
def formattedQuery (query : String) (n : Nat) : String :=
  query ++ (" OFFSET $" ++ toString (n + 1) ++ " LIMIT $" ++ toString (n + 2))

/-- The text of the count query, the raw string literal of the source around `query`. -/
def totalQuery (query : String) : String :=
  "\n\t\tSELECT COUNT(*) FROM (\n\t\t\t" ++ query ++ "\n\t\t) AS subquery\n\t"

/-- The local `offset := (page - 1) * limit`. -/
def offset (page limit : Int) : Int := goMul (goSub page 1) limit

/-- The local `argsWithLimit := append(args, offset, limit)`. -/
def argsWithLimit {α : Type} (args : List (Arg α)) (page limit : Int) : List (Arg α) :=
  args ++ [Arg.int (offset page limit), Arg.int limit]

/-- The method `(*Paginator[T]).QueryPaginated`.  The `context` argument is only handed on to
the database and is part of the oracle `db`.  The branches follow the source's exits: line 46
(the paged query failed; no stream to close), line 57 (a decode failed), line 74 (the count
query failed), the panic of the division on line 77, and the final `return` of lines 79-85,
whose second component is `rows.Err()`. -/
def QueryPaginated {α Row T Err : Type} (db : DB α Row Err) (query : String)
    (args : List (Arg α)) (page limit : Int) (scan : Row → Except Err T) :
    Run α Row T Err :=
  let fq := formattedQuery query args.length
  let awl := argsWithLimit args page limit
  match db.QueryContext fq awl with
  | .error err => ⟨.returned none (some err), [.query fq awl]⟩
  | .ok rows =>
    match scanRows scan rows.pending Slice.make0 with
    | (.error err, scans) =>
      ⟨.returned none (some err), .query fq awl :: scans ++ [.close]⟩
    | (.ok results, scans) =>
      match db.QueryRowContext (totalQuery query) args with
      | .error err =>
        ⟨.returned none (some err),
          .query fq awl :: scans ++ [.queryRow (totalQuery query) args, .close]⟩
      | .ok totalRows =>
        match goDiv (goSub (goAdd totalRows limit) 1) limit with
        | none =>
          ⟨.panicked,
            .query fq awl :: scans ++ [.queryRow (totalQuery query) args, .close]⟩
        | some totalPages =>
          ⟨.returned
              (some { Items := results, Page := page, Limit := limit, Total := totalRows,
                      TotalPages := totalPages })
              rows.lasterr,
            .query fq awl :: scans ++ [.queryRow (totalQuery query) args, .close]⟩

/-! ## Query texts up to whitespace -/

/-- The whitespace class `\s` of Go's `regexp` (`[\t\n\f\r ]`), the one the repository's
tests collapse before comparing query texts. -/
def isSpace (c : Char) : Bool :=
  c = ' ' || c = '\t' || c = '\n' || c = '\x0c' || c = '\r'

/-- The maximal runs of non-whitespace characters of a text, in order; `cur` is the run being
read. -/
def tokensAux : List Char → List Char → List (List Char)
  | [], cur => if cur = [] then [] else [cur]
  | c :: cs, cur =>
    if isSpace c then
      (if cur = [] then tokensAux cs [] else cur :: tokensAux cs [])
    else tokensAux cs (cur ++ [c])

/-- The whitespace-separated tokens of a text. -/
def tokens (s : String) : List (List Char) := tokensAux s.data []

/-- Two texts are equal up to whitespace when they have the same tokens, that is, when they
differ only in the amount and kind of whitespace between tokens and at both ends. -/
def EqUpToWhitespace (a b : String) : Prop := tokens a = tokens b

instance (a b : String) : Decidable (EqUpToWhitespace a b) := by
  unfold EqUpToWhitespace
  infer_instance

/-! ## `utils.go`: reading `page` and `limit` from the query string -/

/-- The `Err` field of a `*strconv.NumError`. -/
inductive NumError where
  | ErrSyntax
  | ErrRange
  deriving DecidableEq

/-- Largest `uint64`, `2^64 - 1`. -/
def maxUint64 : Nat := 18446744073709551615

/-- Whether the byte is one of `'0'` .. `'9'`. -/
def isDigit (c : Char) : Bool := 48 ≤ c.toNat && c.toNat ≤ 57

/-- The digit loop of `strconv.ParseUint(s, 10, 64)` with `n` the value accumulated so far:
a byte that is not a decimal digit ends the loop with `(0, ErrSyntax)`; an overflow of
`uint64`, detected before the multiplication by `n >= cutoff` and after the addition by the
wrapped sum being smaller than the summand, ends it with `(maxVal, ErrRange)`. -/
def parseUintLoop : List Char → Nat → Nat × Option NumError
  | [], n => (n, none)
  | c :: cs, n =>
    if isDigit c then
      let d := c.toNat - 48
      if n ≥ maxUint64 / 10 + 1 then (maxUint64, some .ErrRange)
      else
        let n10 := n * 10
        let n1 := (n10 + d) % 18446744073709551616
        if n1 < n10 ∨ n1 > maxUint64 then (maxUint64, some .ErrRange)
        else parseUintLoop cs n1
    else (0, some .ErrSyntax)

/-- Go's `strconv.ParseUint(s, 10, 64)`. -/
def ParseUint (s : List Char) : Nat × Option NumError :=
  if s = [] then (0, some .ErrSyntax) else parseUintLoop s 0

/-- Go's `strconv.ParseInt(s, 10, 0)` on a 64-bit platform: an optional leading sign is picked
off, the rest is converted unsigned, and the range of `int64` is checked. -/
def ParseInt (s : List Char) : Int × Option NumError :=
  match s with
  | [] => (0, some .ErrSyntax)
  | c :: rest =>
    let neg : Bool := c = '-'
    let body := if c = '+' ∨ c = '-' then rest else s
    let r := ParseUint body
    if r.2 = some .ErrSyntax then (0, some .ErrSyntax)
    else if neg = false ∧ r.1 ≥ 9223372036854775808 then
      (9223372036854775807, some .ErrRange)
    else if neg = true ∧ r.1 > 9223372036854775808 then
      (-9223372036854775808, some .ErrRange)
    else (if neg then -(r.1 : Int) else (r.1 : Int), none)

/-- Go's `strconv.Atoi`, which "is equivalent to `ParseInt(s, 10, 0)`, converted to type
`int`": the value returned (also on failure) and the error. -/
def Atoi (s : String) : Int × Option NumError := ParseInt s.data

/-- The parsed query string `r.URL.Query()`, a `url.Values`: the values given for each key, in
order; a key that does not occur has none. -/
abbrev Values := String → List String

/-- Go's `url.Values.Get`: the first value of the key, or `""` when there is none. -/
def Values.Get (v : Values) (key : String) : String :=
  match v key with
  | [] => ""
  | x :: _ => x

/-- The function `GetPageAndLimitParams`, on the parsed query string of the request. -/
def GetPageAndLimitParams (q : Values) : Int × Int :=
  let page : Int := 1
  let limit : Int := 10
  let pageStr := q.Get "page"
  let page := if pageStr ≠ "" then (Atoi pageStr).1 else page
  let limitStr := q.Get "limit"
  let limit := if limitStr ≠ "" then (Atoi limitStr).1 else limit
  (page, limit)

/-- The query string `?page=<p>&limit=<l>`; `none` leaves the parameter out. -/
def queryOf (p l : Option String) : Values :=
  fun key =>
    if key = "page" then p.toList
    else if key = "limit" then l.toList
    else []

/-! ### What "parseable as an integer" means -/

/-- The number denoted by a sequence of decimal digits. -/
def digitsValue (ds : List Char) : Nat :=
  ds.foldl (fun n c => 10 * n + (c.toNat - 48)) 0

/-- The integer a text denotes in decimal: an optional sign `+` or `-`, then one or more
decimal digits, the value lying in the range of `int`; `none` for any other text. -/
def decimalInt (s : String) : Option Int :=
  let neg : Bool := s.data.head? = some '-'
  let ds := if s.data.head? = some '+' ∨ s.data.head? = some '-' then s.data.tail else s.data
  if ds ≠ [] ∧ ds.all isDigit = true then
    let z : Int := if neg then -(digitsValue ds : Int) else (digitsValue ds : Int)
    if minInt ≤ z ∧ z ≤ maxInt then some z else none
  else none

/-- What the request says about one parameter: `none` when the key does not occur in the query
string, `some z` when its first value is a text denoting the integer `z`. -/
def ParamIs (q : Values) (key : String) : Option Int → Prop
  | none => q key = []
  | some z => ∃ s rest, q key = s :: rest ∧ decimalInt s = some z

/-! ## Concrete databases and decoders for the examples -/

/-- A database that answers every paged query with the rows `rows` followed by the stream
error `lasterr`, and every count query with `count`. -/
def constDB (rows : List Nat) (lasterr : Option String) (count : Except String Int) :
    DB String Nat String where
  QueryContext := fun _ _ => .ok ⟨rows, lasterr⟩
  QueryRowContext := fun _ _ => count

/-- A decode function that fails on the row `0` and maps any other row `n` to `10 * n`. -/
def scanTen : Nat → Except String Nat :=
  fun n => if n = 0 then .error "Scan error" else .ok (10 * n)

/-! ## Facts about Go arithmetic -/

theorem wrapInt_of_inRange (x : Int) (h1 : minInt ≤ x) (h2 : x ≤ maxInt) : wrapInt x = x := by
  unfold wrapInt
  unfold minInt at h1
  unfold maxInt at h2
  omega

/-- The reduction lands in the range of `int`. -/
theorem wrapInt_inRange (x : Int) : minInt ≤ wrapInt x ∧ wrapInt x ≤ maxInt := by
  unfold wrapInt minInt maxInt
  omega

/-- The division panics exactly on a zero divisor. -/
theorem goDiv_eq_none_iff (a b : Int) : goDiv a b = none ↔ b = 0 := by
  unfold goDiv
  by_cases h : b = 0 <;> simp [h]

/-- With a non-negative `total`, a positive `limit` and no overflow in `total + limit - 1`,
the expression `(totalRows + limit - 1) / limit` is the mathematical floor quotient. -/
theorem totalPages_inRange (total limit : Int) (ht : 0 ≤ total) (hl : 0 < limit)
    (hov : total + limit - 1 ≤ maxInt) :
    goDiv (goSub (goAdd total limit) 1) limit = some ((total + limit - 1) / limit) := by
  have hsub : goSub (goAdd total limit) 1 = total + limit - 1 := by
    unfold goSub goAdd wrapInt
    unfold maxInt at hov
    omega
  have hne : limit ≠ 0 := by omega
  have hnum : 0 ≤ total + limit - 1 := by omega
  have hq : Int.tdiv (total + limit - 1) limit = (total + limit - 1) / limit :=
    Int.tdiv_eq_ediv hnum (le_of_lt hl)
  have hq0 : 0 ≤ (total + limit - 1) / limit := Int.ediv_nonneg hnum (le_of_lt hl)
  have hq1 : (total + limit - 1) / limit ≤ total + limit - 1 :=
    Int.ediv_le_self _ hnum
  unfold goDiv
  rw [hsub, if_neg hne, hq]
  congr 1
  apply wrapInt_of_inRange
  · unfold minInt; omega
  · omega

/-- The floor quotient `(total + limit - 1) / limit` is the ceiling of `total / limit`. -/
theorem ceil_div_eq (total limit : Int) (hl : 0 < limit) :
    ⌈(total : ℚ) / (limit : ℚ)⌉ = (total + limit - 1) / limit := by
  have hlq : (0 : ℚ) < (limit : ℚ) := by exact_mod_cast hl
  have h1 : limit * ((total + limit - 1) / limit) ≤ total + limit - 1 :=
    Int.mul_ediv_self_le (ne_of_gt hl)
  have h2 : total + limit - 1 < limit * ((total + limit - 1) / limit) + limit :=
    Int.lt_mul_ediv_self_add hl
  rw [Int.ceil_eq_iff]
  constructor
  · rw [lt_div_iff₀ hlq]
    have : ((total + limit - 1) / limit - 1) * limit < total := by nlinarith
    exact_mod_cast this
  · rw [div_le_iff₀ hlq]
    have : total ≤ ((total + limit - 1) / limit) * limit := by nlinarith
    exact_mod_cast this

/-! ## Facts about the row loop -/

theorem scanRows_ok {α Row T Err : Type} (scan : Row → Except Err T) (rows : List Row)
    (items : List T) (h : List.Forall₂ (fun r t => scan r = .ok t) rows items)
    (acc : List T) :
    scanRows (α := α) scan rows (some acc) =
      (.ok (some (acc ++ items)), rows.map Event.scan) := by
  induction h generalizing acc with
  | nil => simp [scanRows]
  | cons hrt _ ih =>
    simp only [scanRows, hrt, Slice.append, ih, List.map_cons, List.append_assoc,
      List.singleton_append]

/-- When the rows `pre` decode and the next row `r` does not, the loop ends with the error of
`r` after calling `scan` on `pre` and on `r` only. -/
theorem scanRows_error {α Row T Err : Type} (scan : Row → Except Err T) (pre : List Row)
    (r : Row) (post : List Row) (items : List T) (e : Err)
    (h : List.Forall₂ (fun r t => scan r = .ok t) pre items) (hr : scan r = .error e)
    (acc : List T) :
    scanRows (α := α) scan (pre ++ r :: post) (some acc) =
      (.error e, (pre ++ [r]).map Event.scan) := by
  induction h generalizing acc with
  | nil => simp [scanRows, hr]
  | cons hrt _ ih =>
    rw [List.cons_append]
    simp only [scanRows, hrt, Slice.append]
    rw [ih]
    simp

/-- Rows that all decode have a list of decode results. -/
theorem forall₂_of_forall_ok {Row T Err : Type} (scan : Row → Except Err T) (rows : List Row)
    (h : ∀ r ∈ rows, ∃ t, scan r = .ok t) :
    ∃ items, List.Forall₂ (fun r t => scan r = .ok t) rows items := by
  induction rows with
  | nil => exact ⟨[], List.Forall₂.nil⟩
  | cons r rest ih =>
    obtain ⟨t, ht⟩ := h r (List.mem_cons_self r rest)
    obtain ⟨ts, hts⟩ := ih (fun x hx => h x (List.mem_cons_of_mem r hx))
    exact ⟨t :: ts, List.Forall₂.cons ht hts⟩

/-- Every row list either decodes completely or splits at the first row whose decode fails. -/
theorem decode_cases {Row T Err : Type} (scan : Row → Except Err T) (rows : List Row) :
    (∃ items, List.Forall₂ (fun r t => scan r = .ok t) rows items) ∨
    (∃ pre r post items e, rows = pre ++ r :: post ∧
      List.Forall₂ (fun r t => scan r = .ok t) pre items ∧ scan r = .error e) := by
  induction rows with
  | nil => exact Or.inl ⟨[], List.Forall₂.nil⟩
  | cons r rest ih =>
    cases hr : scan r with
    | error e => exact Or.inr ⟨[], r, rest, [], e, rfl, List.Forall₂.nil, hr⟩
    | ok t =>
      rcases ih with ⟨items, h⟩ | ⟨pre, x, post, items, e, h1, h2, h3⟩
      · exact Or.inl ⟨t :: items, List.Forall₂.cons hr h⟩
      · exact Or.inr ⟨r :: pre, x, post, t :: items, e, by rw [h1]; rfl,
          List.Forall₂.cons hr h2, h3⟩

/-! ## The exit paths of `QueryPaginated` -/

section Paths

variable {α Row T Err : Type} (db : DB α Row Err) (query : String) (args : List (Arg α))
  (page limit : Int) (scan : Row → Except Err T)

/-- Line 46: the paged query fails. -/
theorem run_query_error (e : Err)
    (hq : db.QueryContext (formattedQuery query args.length) (argsWithLimit args page limit)
      = .error e) :
    QueryPaginated db query args page limit scan =
      ⟨.returned none (some e),
        [.query (formattedQuery query args.length) (argsWithLimit args page limit)]⟩ := by
  simp only [QueryPaginated, hq]

/-- Line 57: a decode fails. -/
theorem run_scan_error (rows : Rows Row Err) (pre : List Row) (r : Row) (post : List Row)
    (items : List T) (e : Err)
    (hq : db.QueryContext (formattedQuery query args.length) (argsWithLimit args page limit)
      = .ok rows)
    (hrows : rows.pending = pre ++ r :: post)
    (hpre : List.Forall₂ (fun r t => scan r = .ok t) pre items) (hr : scan r = .error e) :
    QueryPaginated db query args page limit scan =
      ⟨.returned none (some e),
        .query (formattedQuery query args.length) (argsWithLimit args page limit) ::
          (pre ++ [r]).map Event.scan ++ [.close]⟩ := by
  have h := scanRows_error (α := α) scan pre r post items e hpre hr []
  simp only [QueryPaginated, hq, hrows, Slice.make0, h]

/-- Line 74: the count query fails. -/
theorem run_count_error (rows : Rows Row Err) (items : List T) (e : Err)
    (hq : db.QueryContext (formattedQuery query args.length) (argsWithLimit args page limit)
      = .ok rows)
    (hs : List.Forall₂ (fun r t => scan r = .ok t) rows.pending items)
    (hc : db.QueryRowContext (totalQuery query) args = .error e) :
    QueryPaginated db query args page limit scan =
      ⟨.returned none (some e),
        .query (formattedQuery query args.length) (argsWithLimit args page limit) ::
          rows.pending.map Event.scan ++ [.queryRow (totalQuery query) args, .close]⟩ := by
  have h := scanRows_ok (α := α) scan rows.pending items hs []
  simp only [QueryPaginated, hq, Slice.make0, h, hc]

/-- Line 77 with `limit = 0`: the division panics. -/
theorem run_panic (rows : Rows Row Err) (items : List T) (total : Int)
    (hq : db.QueryContext (formattedQuery query args.length) (argsWithLimit args page limit)
      = .ok rows)
    (hs : List.Forall₂ (fun r t => scan r = .ok t) rows.pending items)
    (hc : db.QueryRowContext (totalQuery query) args = .ok total)
    (hd : goDiv (goSub (goAdd total limit) 1) limit = none) :
    QueryPaginated db query args page limit scan =
      ⟨.panicked,
        .query (formattedQuery query args.length) (argsWithLimit args page limit) ::
          rows.pending.map Event.scan ++ [.queryRow (totalQuery query) args, .close]⟩ := by
  have h := scanRows_ok (α := α) scan rows.pending items hs []
  simp only [QueryPaginated, hq, Slice.make0, h, hc, hd]

/-- Lines 79-85: the final return. -/
theorem run_page (rows : Rows Row Err) (items : List T) (total tp : Int)
    (hq : db.QueryContext (formattedQuery query args.length) (argsWithLimit args page limit)
      = .ok rows)
    (hs : List.Forall₂ (fun r t => scan r = .ok t) rows.pending items)
    (hc : db.QueryRowContext (totalQuery query) args = .ok total)
    (hd : goDiv (goSub (goAdd total limit) 1) limit = some tp) :
    QueryPaginated db query args page limit scan =
      ⟨.returned (some ⟨some items, page, limit, total, tp⟩) rows.lasterr,
        .query (formattedQuery query args.length) (argsWithLimit args page limit) ::
          rows.pending.map Event.scan ++ [.queryRow (totalQuery query) args, .close]⟩ := by
  have h := scanRows_ok (α := α) scan rows.pending items hs []
  simp only [QueryPaginated, hq, Slice.make0, h, hc, hd, List.nil_append]

end Paths

section Trace

variable {α Row T Err : Type} (db : DB α Row Err) (query : String) (args : List (Arg α))
  (page limit : Int) (scan : Row → Except Err T)

/-- A count query in the trace is the one built from the caller's `query` and `args`, and it
was preceded by a paged query that was executed successfully and whose delivered rows all
decoded. -/
theorem queryRow_mem_trace (text : String) (a : List (Arg α))
    (h : Event.queryRow text a ∈ (QueryPaginated db query args page limit scan).trace) :
    text = totalQuery query ∧ a = args ∧
      ∃ rows items,
        db.QueryContext (formattedQuery query args.length) (argsWithLimit args page limit)
          = .ok rows ∧
        List.Forall₂ (fun r t => scan r = .ok t) rows.pending items := by
  cases hq : db.QueryContext (formattedQuery query args.length)
      (argsWithLimit args page limit) with
  | error e =>
    rw [run_query_error db query args page limit scan e hq] at h
    simp at h
  | ok rows =>
    rcases decode_cases scan rows.pending with ⟨items, hs⟩ | ⟨pre, r, post, items, e, h1, h2, h3⟩
    · have key : Event.queryRow text a ∈
          Event.query (formattedQuery query args.length) (argsWithLimit args page limit) ::
            rows.pending.map Event.scan ++ [.queryRow (totalQuery query) args, .close] := by
        cases hc : db.QueryRowContext (totalQuery query) args with
        | error e =>
          rw [run_count_error db query args page limit scan rows items e hq hs hc] at h
          exact h
        | ok total =>
          cases hd : goDiv (goSub (goAdd total limit) 1) limit with
          | none =>
            rw [run_panic db query args page limit scan rows items total hq hs hc hd] at h
            exact h
          | some tp =>
            rw [run_page db query args page limit scan rows items total tp hq hs hc hd] at h
            exact h
      simp at key
      exact ⟨key.1, key.2, rows, items, rfl, hs⟩
    · rw [run_scan_error db query args page limit scan rows pre r post items e hq h1 h2 h3] at h
      simp at h

/-- The trace of any call is the paged query, then `scan` calls only, then at most one count
query, then (when a row stream was obtained) the deferred close. -/
theorem trace_shape :
    ∃ scans : List Row,
      (QueryPaginated db query args page limit scan).trace =
          [.query (formattedQuery query args.length) (argsWithLimit args page limit)] ∨
      (QueryPaginated db query args page limit scan).trace =
          .query (formattedQuery query args.length) (argsWithLimit args page limit) ::
            scans.map Event.scan ++ [.close] ∨
      (QueryPaginated db query args page limit scan).trace =
          .query (formattedQuery query args.length) (argsWithLimit args page limit) ::
            scans.map Event.scan ++ [.queryRow (totalQuery query) args, .close] := by
  cases hq : db.QueryContext (formattedQuery query args.length)
      (argsWithLimit args page limit) with
  | error e =>
    exact ⟨[], Or.inl (by rw [run_query_error db query args page limit scan e hq])⟩
  | ok rows =>
    rcases decode_cases scan rows.pending with ⟨items, hs⟩ | ⟨pre, r, post, items, e, h1, h2, h3⟩
    · refine ⟨rows.pending, Or.inr (Or.inr ?_)⟩
      cases hc : db.QueryRowContext (totalQuery query) args with
      | error e => rw [run_count_error db query args page limit scan rows items e hq hs hc]
      | ok total =>
        cases hd : goDiv (goSub (goAdd total limit) 1) limit with
        | none => rw [run_panic db query args page limit scan rows items total hq hs hc hd]
        | some tp => rw [run_page db query args page limit scan rows items total tp hq hs hc hd]
    · exact ⟨pre ++ [r], Or.inr (Or.inl (by
        rw [run_scan_error db query args page limit scan rows pre r post items e hq h1 h2 h3]))⟩

end Trace

/-! ## Facts about tokens -/

theorem tokensAux_append_space (a : List Char) (w : Char) (b cur : List Char)
    (hw : isSpace w = true) :
    tokensAux (a ++ w :: b) cur = tokensAux a cur ++ tokensAux b [] := by
  induction a generalizing cur with
  | nil =>
    by_cases hc : cur = [] <;> simp [tokensAux, hw, hc]
  | cons c cs ih =>
    by_cases hsp : isSpace c = true
    · by_cases hc : cur = [] <;> simp [tokensAux, hsp, hc, ih]
    · simp [tokensAux, hsp, ih]

/-- Tokens of a text made of a head, a whitespace character, an embedded text, a whitespace
character and a tail. -/
theorem tokens_embed (a : List Char) (w1 : Char) (q : List Char) (w2 : Char) (b : List Char)
    (h1 : isSpace w1 = true) (h2 : isSpace w2 = true) :
    tokensAux (a ++ w1 :: (q ++ w2 :: b)) [] =
      tokensAux a [] ++ (tokensAux q [] ++ tokensAux b []) := by
  rw [tokensAux_append_space a w1 _ [] h1, tokensAux_append_space q w2 b [] h2]

/-- The tokens of the count query: those of the opening, of the embedded query and of the
closing. -/
theorem tokens_totalQuery (query : String) :
    tokens (totalQuery query) =
      tokens "SELECT COUNT(*) FROM (" ++ (tokens query ++ tokens ") AS subquery") := by
  have hdata : (totalQuery query).data =
      "\n\t\tSELECT COUNT(*) FROM (\n\t\t".data ++
        '\t' :: (query.data ++ '\n' :: "\t\t) AS subquery\n\t".data) := by
    simp [totalQuery, String.data_append]
  unfold tokens
  rw [hdata, tokens_embed _ _ _ _ _ (by decide) (by decide)]
  have ha : tokensAux "\n\t\tSELECT COUNT(*) FROM (\n\t\t".data [] =
      tokensAux "SELECT COUNT(*) FROM (".data [] := by decide
  have hb : tokensAux "\t\t) AS subquery\n\t".data [] =
      tokensAux ") AS subquery".data [] := by decide
  rw [ha, hb]

/-- The tokens of the one-line text of the count query. -/
theorem tokens_spec_text (query : String) :
    tokens ("SELECT COUNT(*) FROM ( " ++ query ++ " ) AS subquery") =
      tokens "SELECT COUNT(*) FROM (" ++ (tokens query ++ tokens ") AS subquery") := by
  have hdata : ("SELECT COUNT(*) FROM ( " ++ query ++ " ) AS subquery").data =
      "SELECT COUNT(*) FROM (".data ++
        ' ' :: (query.data ++ ' ' :: ") AS subquery".data) := by
    simp [String.data_append]
  unfold tokens
  rw [hdata, tokens_embed _ _ _ _ _ (by decide) (by decide)]

/-! ## Facts about `Atoi` -/

theorem foldl_digits_ge (ds : List Char) (n : Nat) :
    n ≤ ds.foldl (fun n c => 10 * n + (c.toNat - 48)) n := by
  induction ds generalizing n with
  | nil => simp
  | cons c cs ih =>
    simp only [List.foldl_cons]
    exact le_trans (by omega) (ih _)

/-- On decimal digits whose value fits `uint64` the digit loop returns that value. -/
theorem parseUintLoop_digits (ds : List Char) (n : Nat) (hall : ds.all isDigit = true)
    (hmax : ds.foldl (fun n c => 10 * n + (c.toNat - 48)) n ≤ maxUint64) :
    parseUintLoop ds n = (ds.foldl (fun n c => 10 * n + (c.toNat - 48)) n, none) := by
  induction ds generalizing n with
  | nil => simp [parseUintLoop]
  | cons c cs ih =>
    simp only [List.all_cons, Bool.and_eq_true] at hall
    simp only [List.foldl_cons] at hmax ⊢
    have hge := foldl_digits_ge cs (10 * n + (c.toNat - 48))
    have hd : isDigit c = true := hall.1
    unfold maxUint64 at hmax
    have h1 : ¬ (n ≥ maxUint64 / 10 + 1) := by unfold maxUint64; omega
    have h2 : (n * 10 + (c.toNat - 48)) % 18446744073709551616 = 10 * n + (c.toNat - 48) := by
      omega
    have h3 : ¬ (10 * n + (c.toNat - 48) < n * 10 ∨ 10 * n + (c.toNat - 48) > maxUint64) := by
      unfold maxUint64; omega
    simp only [parseUintLoop, hd, if_true, h1, if_false, h2, h3]
    exact ih _ hall.2 hmax

/-- On a non-empty run of decimal digits whose value fits `uint64`, `ParseUint` returns that
value. -/
theorem ParseUint_digits (ds : List Char) (hne : ds ≠ []) (hall : ds.all isDigit = true)
    (hmax : digitsValue ds ≤ maxUint64) : ParseUint ds = (digitsValue ds, none) := by
  unfold ParseUint
  rw [if_neg hne]
  exact parseUintLoop_digits ds 0 hall hmax

/-- A text that denotes the integer `z` is not empty and `Atoi` returns `z` without error. -/
theorem Atoi_of_decimalInt (s : String) (z : Int) (h : decimalInt s = some z) :
    Atoi s = (z, none) ∧ s ≠ "" := by
  have hne : s ≠ "" := by
    intro hs
    subst hs
    have h0 : decimalInt "" = none := by decide
    rw [h0] at h
    cases h
  refine ⟨?_, hne⟩
  unfold Atoi
  unfold decimalInt at h
  have hpm : ¬ ('+' : Char) = '-' := by decide
  cases hs : s.data with
  | nil =>
    rw [hs] at h
    simp at h
  | cons c rest =>
    rw [hs] at h
    by_cases hm : c = '-'
    · subst hm
      simp at h
      obtain ⟨⟨hd1, hd2⟩, ⟨hr1, hr2⟩, hz⟩ := h
      subst hz
      unfold minInt at hr1
      have hu := ParseUint_digits rest hd1 (List.all_eq_true.mpr hd2)
        (by unfold maxUint64; omega)
      simp only [ParseInt, hu, or_true, if_true, decide_True]
      simp
      omega
    · by_cases hp : c = '+'
      · subst hp
        simp [hpm] at h
        obtain ⟨⟨hd1, hd2⟩, ⟨hr1, hr2⟩, hz⟩ := h
        subst hz
        unfold maxInt at hr2
        have hu := ParseUint_digits rest hd1 (List.all_eq_true.mpr hd2)
          (by unfold maxUint64; omega)
        simp [ParseInt, hu, hpm]
        omega
      · simp [hp, hm] at h
        obtain ⟨⟨hd1, hd2⟩, ⟨hr1, hr2⟩, hz⟩ := h
        subst hz
        unfold maxInt at hr2
        have hall : (c :: rest).all isDigit = true := by
          simp [hd1]
          exact hd2
        have hu := ParseUint_digits (c :: rest) (by simp) hall
          (by unfold maxUint64; omega)
        simp [ParseInt, hu, hp, hm]
        omega

/-- When the digit loop ends without error it has read decimal digits only and returns their
value. -/
theorem parseUintLoop_ok (ds : List Char) (n v : Nat) (h : parseUintLoop ds n = (v, none)) :
    ds.all isDigit = true ∧ v = ds.foldl (fun n c => 10 * n + (c.toNat - 48)) n := by
  induction ds generalizing n with
  | nil =>
    simp [parseUintLoop] at h
    simp [h]
  | cons c cs ih =>
    unfold parseUintLoop at h
    by_cases hd : isDigit c = true
    · rw [if_pos hd] at h
      by_cases h1 : n ≥ maxUint64 / 10 + 1
      · simp [h1] at h
      · simp only [h1, if_false] at h
        by_cases h3 : (n * 10 + (c.toNat - 48)) % 18446744073709551616 < n * 10 ∨
            (n * 10 + (c.toNat - 48)) % 18446744073709551616 > maxUint64
        · simp [h3] at h
        · simp only [h3, if_false] at h
          obtain ⟨hall, hv⟩ := ih _ h
          have hdig : c.toNat - 48 ≤ 9 := by
            simp only [isDigit, Bool.and_eq_true, decide_eq_true_eq] at hd
            omega
          have hn : (n * 10 + (c.toNat - 48)) % 18446744073709551616
              = 10 * n + (c.toNat - 48) := by
            unfold maxUint64 at h1 h3
            omega
          rw [hn] at hv
          simp [hd, hall, hv]
    · simp [hd] at h

/-- When `ParseUint` succeeds its input is a non-empty run of decimal digits and the result
is their value. -/
theorem ParseUint_ok (ds : List Char) (v : Nat) (h : ParseUint ds = (v, none)) :
    ds ≠ [] ∧ ds.all isDigit = true ∧ v = digitsValue ds := by
  unfold ParseUint at h
  by_cases hne : ds = []
  · simp [hne] at h
  · rw [if_neg hne] at h
    exact ⟨hne, parseUintLoop_ok ds 0 v h⟩

/-- A range error of the digit loop comes with the value `maxUint64`. -/
theorem parseUintLoop_range (ds : List Char) (n v : Nat)
    (h : parseUintLoop ds n = (v, some NumError.ErrRange)) : v = maxUint64 := by
  induction ds generalizing n with
  | nil => simp [parseUintLoop] at h
  | cons c cs ih =>
    unfold parseUintLoop at h
    by_cases hd : isDigit c = true
    · rw [if_pos hd] at h
      by_cases h1 : n ≥ maxUint64 / 10 + 1
      · simp [h1] at h
        exact h.symm
      · simp only [h1, if_false] at h
        by_cases h3 : (n * 10 + (c.toNat - 48)) % 18446744073709551616 < n * 10 ∨
            (n * 10 + (c.toNat - 48)) % 18446744073709551616 > maxUint64
        · simp [h3] at h
          exact h.symm
        · simp only [h3, if_false] at h
          exact ih _ h
    · simp [hd] at h

/-- A range error of `ParseUint` comes with the value `maxUint64`. -/
theorem ParseUint_range (ds : List Char) (v : Nat)
    (h : ParseUint ds = (v, some NumError.ErrRange)) : v = maxUint64 := by
  unfold ParseUint at h
  by_cases hne : ds = []
  · simp [hne] at h
  · rw [if_neg hne] at h
    exact parseUintLoop_range ds 0 v h

/-- The texts `Atoi` converts without error are exactly the ones that denote an integer, and
the value returned is the integer denoted. -/
theorem decimalInt_of_Atoi (s : String) (z : Int) (h : Atoi s = (z, none)) :
    decimalInt s = some z := by
  unfold Atoi ParseInt at h
  have hpm : ¬ ('+' : Char) = '-' := by decide
  cases hs : s.data with
  | nil =>
    rw [hs] at h
    simp at h
  | cons c rest =>
    rw [hs] at h
    simp only at h
    by_cases hm : c = '-'
    · subst hm
      simp only [or_true, if_true, decide_True] at h
      rcases hr : ParseUint rest with ⟨v, e⟩
      rw [hr] at h
      rcases e with _ | e
      · obtain ⟨h1, h2, h3⟩ := ParseUint_ok rest v hr
        simp at h
        by_cases hv : 9223372036854775808 < v
        · simp [hv] at h
        · simp [hv] at h
          subst h3
          have hlo : minInt ≤ -(digitsValue rest : Int) := by unfold minInt; omega
          have hhi : -(digitsValue rest : Int) ≤ maxInt := by unfold maxInt; omega
          subst h
          simp [decimalInt, hs, h1, hlo, hhi]
          exact List.all_eq_true.mp h2
      · cases e
        · simp at h
        · have := ParseUint_range rest v hr
          subst this
          simp [maxUint64] at h
    · by_cases hp : c = '+'
      · subst hp
        simp only [true_or, if_true] at h
        rcases hr : ParseUint rest with ⟨v, e⟩
        rw [hr] at h
        rcases e with _ | e
        · obtain ⟨h1, h2, h3⟩ := ParseUint_ok rest v hr
          simp [hpm] at h
          by_cases hv : 9223372036854775808 ≤ v
          · simp [hv] at h
          · simp [hv] at h
            subst h3
            have hlo : minInt ≤ (digitsValue rest : Int) := by unfold minInt; omega
            have hhi : (digitsValue rest : Int) ≤ maxInt := by unfold maxInt; omega
            subst h
            simp [decimalInt, hs, h1, hlo, hhi, hpm]
            exact List.all_eq_true.mp h2
        · cases e
          · simp at h
          · have := ParseUint_range rest v hr
            subst this
            simp [maxUint64, hpm] at h
      · simp only [hp, hm, or_self, if_false] at h
        rcases hr : ParseUint (c :: rest) with ⟨v, e⟩
        rw [hr] at h
        rcases e with _ | e
        · obtain ⟨h1, h2, h3⟩ := ParseUint_ok (c :: rest) v hr
          simp at h
          by_cases hv : 9223372036854775808 ≤ v
          · simp [hv] at h
          · simp [hv] at h
            subst h3
            have hlo : minInt ≤ (digitsValue (c :: rest) : Int) := by unfold minInt; omega
            have hhi : (digitsValue (c :: rest) : Int) ≤ maxInt := by unfold maxInt; omega
            have h2' := List.all_eq_true.mp h2
            simp at h2'
            subst h
            simp [decimalInt, hs, h2'.1, hlo, hhi, hp, hm]
            exact h2'.2
        · cases e
          · simp at h
          · have := ParseUint_range (c :: rest) v hr
            subst this
            simp [maxUint64] at h

/-- The value `GetPageAndLimitParams` computes for one parameter with default `d`. -/
theorem param_value (q : Values) (key : String) (v : Option Int) (d : Int)
    (h : ParamIs q key v) :
    (if q.Get key ≠ "" then (Atoi (q.Get key)).1 else d) = v.getD d := by
  cases v with
  | none =>
    have hk : q key = [] := h
    simp [Values.Get, hk]
  | some z =>
    obtain ⟨s, rest, hk, hz⟩ := h
    obtain ⟨ha, hne⟩ := Atoi_of_decimalInt s z hz
    simp [Values.Get, hk, hne, ha]

/-- The value `Atoi` returns next to an error is `0` (syntax error) or the nearest bound of
`int` (range error). -/
theorem Atoi_error_value (s : String) (h : (Atoi s).2 ≠ none) :
    (Atoi s).1 = 0 ∨ (Atoi s).1 = maxInt ∨ (Atoi s).1 = minInt := by
  unfold Atoi ParseInt at *
  cases hs : s.data with
  | nil => simp
  | cons c rest =>
    rw [hs] at h
    simp only at h ⊢
    generalize (if c = '+' ∨ c = '-' then rest else c :: rest) = body at h ⊢
    by_cases h1 : (ParseUint body).2 = some NumError.ErrSyntax
    · simp [h1]
    · by_cases h2 : decide (c = '-') = false ∧ (ParseUint body).1 ≥ 9223372036854775808
      · rw [if_neg h1, if_pos h2]
        exact Or.inr (Or.inl rfl)
      · by_cases h3 : decide (c = '-') = true ∧ (ParseUint body).1 > 9223372036854775808
        · rw [if_neg h1, if_neg h2, if_pos h3]
          exact Or.inr (Or.inr rfl)
        · rw [if_neg h1, if_neg h2, if_neg h3] at h
          exact absurd rfl h

/-- A parameter whose first value is neither empty nor a text denoting an integer never
comes out as its default `d` when `d` is neither `0` nor a bound of `int`. -/
theorem param_value_unparseable (q : Values) (key : String) (d : Int)
    (hne : q.Get key ≠ "") (hbad : decimalInt (q.Get key) = none)
    (hd0 : d ≠ 0) (hd1 : d ≠ maxInt) (hd2 : d ≠ minInt) :
    (if q.Get key ≠ "" then (Atoi (q.Get key)).1 else d) ≠ d := by
  rw [if_pos hne]
  have herr : (Atoi (q.Get key)).2 ≠ none := by
    intro hnone
    have := decimalInt_of_Atoi (q.Get key) (Atoi (q.Get key)).1 (by rw [← hnone])
    rw [hbad] at this
    cases this
  rcases Atoi_error_value _ herr with h | h | h <;> rw [h]
  · exact fun hx => hd0 hx.symm
  · exact fun hx => hd1 hx.symm
  · exact fun hx => hd2 hx.symm

/-- Truncated division of a non-positive number by a positive one lies between the dividend
and zero. -/
theorem tdiv_bounds_of_nonpos (a b : Int) (ha : a ≤ 0) (hb : 0 < b) :
    a ≤ Int.tdiv a b ∧ Int.tdiv a b ≤ 0 := by
  have h : Int.tdiv a b = -((-a) / b) := by
    have h1 := Int.neg_tdiv (-a) b
    rw [neg_neg] at h1
    rw [h1, Int.tdiv_eq_ediv (by omega) (le_of_lt hb)]
  have h2 : 0 ≤ (-a) / b := Int.ediv_nonneg (by omega) (le_of_lt hb)
  have h3 : (-a) / b ≤ -a := Int.ediv_le_self _ (by omega)
  rw [h]
  omega

/-- The condition of `totalPages_inRange` is necessary: when `total + limit - 1` exceeds the
largest `int`, the expression `(totalRows + limit - 1) / limit` is at most zero while the
ceiling of `total / limit` is at least one. -/
theorem totalPages_overflow (total limit : Int) (ht : total ≤ maxInt) (hl0 : 0 < limit)
    (hl : limit ≤ maxInt) (hov : maxInt < total + limit - 1) :
    ∃ tp, goDiv (goSub (goAdd total limit) 1) limit = some tp ∧ tp ≤ 0 ∧
      1 ≤ ⌈(total : ℚ) / (limit : ℚ)⌉ := by
  unfold maxInt at ht hl hov
  have hsub : goSub (goAdd total limit) 1 = total + limit - 1 - 18446744073709551616 := by
    unfold goSub goAdd wrapInt
    omega
  have hb := tdiv_bounds_of_nonpos (total + limit - 1 - 18446744073709551616) limit
    (by omega) hl0
  refine ⟨wrapInt (Int.tdiv (total + limit - 1 - 18446744073709551616) limit), ?_, ?_, ?_⟩
  · unfold goDiv
    rw [hsub, if_neg (by omega)]
  · rw [wrapInt_of_inRange _ (by unfold minInt; omega) (by unfold maxInt; omega)]
    exact hb.2
  · rw [ceil_div_eq total limit hl0]
    exact Int.le_ediv_of_mul_le hl0 (by omega)

/-- A page is returned together with an error only on the final `return`, when the row stream
reported an error after the loop. -/
theorem page_with_error_only_from_stream {α Row T Err : Type} (db : DB α Row Err)
    (query : String) (args : List (Arg α)) (page limit : Int) (scan : Row → Except Err T)
    (pg : Page T) (e : Err)
    (h : (QueryPaginated db query args page limit scan).outcome = .returned (some pg) (some e)) :
    ∃ rows,
      db.QueryContext (formattedQuery query args.length) (argsWithLimit args page limit)
        = .ok rows ∧ rows.lasterr = some e := by
  cases hq : db.QueryContext (formattedQuery query args.length)
      (argsWithLimit args page limit) with
  | error e0 =>
    rw [run_query_error db query args page limit scan e0 hq] at h
    simp at h
  | ok rows =>
    refine ⟨rows, rfl, ?_⟩
    rcases decode_cases scan rows.pending with
      ⟨items, hs⟩ | ⟨pre, r, post, items, e1, h1, h2, h3⟩
    · cases hc : db.QueryRowContext (totalQuery query) args with
      | error e2 =>
        rw [run_count_error db query args page limit scan rows items e2 hq hs hc] at h
        simp at h
      | ok total =>
        cases hd : goDiv (goSub (goAdd total limit) 1) limit with
        | none =>
          rw [run_panic db query args page limit scan rows items total hq hs hc hd] at h
          simp at h
        | some tp =>
          rw [run_page db query args page limit scan rows items total tp hq hs hc hd] at h
          simp at h
          exact h.2
    · rw [run_scan_error db query args page limit scan rows pre r post items e1 hq h1 h2 h3] at h
      simp at h

/-! ## The claims -/

/-- C1 (counterexample): with `total = 2` and `limit = 2^63 - 1`, both legal values of `int`
with `total >= 0` and `limit > 0`, the sum `total + limit - 1` overflows: the page returned
has `TotalPages = -1`, whereas `ceil(total / limit) = 1`. -/
theorem totalPages_overflow_counterexample :
    (QueryPaginated (constDB [] none (.ok 2)) "SELECT id FROM users" [] 1
        9223372036854775807 scanTen).outcome
      = .returned (some ⟨some [], 1, 9223372036854775807, 2, -1⟩) none ∧
    ⌈((2 : Int) : ℚ) / ((9223372036854775807 : Int) : ℚ)⌉ = 1 ∧
    (-1 : Int) ≠ ⌈((2 : Int) : ℚ) / ((9223372036854775807 : Int) : ℚ)⌉ := by
  have hceil : ⌈((2 : Int) : ℚ) / ((9223372036854775807 : Int) : ℚ)⌉ = 1 := by
    rw [Int.ceil_eq_iff]
    norm_num
  refine ⟨by decide, hceil, ?_⟩
  rw [hceil]
  decide

/-- C1 (amended): for every `total >= 0` returned by the count query and every `limit > 0`
such that `total + limit - 1` does not exceed the largest `int`, the page returned by
`QueryPaginated` has `TotalPages = ceil(total / limit)`. -/
theorem totalPages_eq_ceil {α Row T Err : Type} (db : DB α Row Err) (query : String)
    (args : List (Arg α)) (page limit : Int) (scan : Row → Except Err T)
    (rows : Rows Row Err) (items : List T) (total : Int)
    (hq : db.QueryContext (formattedQuery query args.length) (argsWithLimit args page limit)
      = .ok rows)
    (hs : List.Forall₂ (fun r t => scan r = .ok t) rows.pending items)
    (hc : db.QueryRowContext (totalQuery query) args = .ok total)
    (ht : 0 ≤ total) (hl : 0 < limit) (hov : total + limit - 1 ≤ maxInt) :
    (QueryPaginated db query args page limit scan).outcome =
      .returned (some ⟨some items, page, limit, total, ⌈(total : ℚ) / (limit : ℚ)⌉⟩)
        rows.lasterr := by
  rw [run_page db query args page limit scan rows items total _ hq hs hc
    (totalPages_inRange total limit ht hl hov), ceil_div_eq total limit hl]

/-- C1 (witness): the three examples of the claim: 5 rows with limit 2 give 3 pages, 6 rows
with limit 2 give 3 pages, 0 rows with limit 10 give 0 pages. -/
theorem totalPages_eq_ceil_witness :
    (QueryPaginated (constDB [1, 2] none (.ok 5)) "SELECT id, name FROM users" [] 1 2
        scanTen).outcome
      = .returned (some ⟨some [10, 20], 1, 2, 5, 3⟩) none ∧
    (QueryPaginated (constDB [3, 4] none (.ok 6)) "SELECT id, name FROM users" [] 2 2
        scanTen).outcome
      = .returned (some ⟨some [30, 40], 2, 2, 6, 3⟩) none ∧
    (QueryPaginated (constDB [] none (.ok 0)) "SELECT id, name FROM users" [] 1 10
        scanTen).outcome
      = .returned (some ⟨some [], 1, 10, 0, 0⟩) none := by
  have c1 : ⌈((5 : Int) : ℚ) / ((2 : Int) : ℚ)⌉ = 3 := by
    rw [Int.ceil_eq_iff]
    norm_num
  have c2 : ⌈((6 : Int) : ℚ) / ((2 : Int) : ℚ)⌉ = 3 := by
    rw [Int.ceil_eq_iff]
    norm_num
  have c3 : ⌈((0 : Int) : ℚ) / ((10 : Int) : ℚ)⌉ = 0 := by
    rw [Int.ceil_eq_iff]
    norm_num
  have h1 := totalPages_eq_ceil (constDB [1, 2] none (.ok 5)) "SELECT id, name FROM users"
    [] 1 2 scanTen ⟨[1, 2], none⟩ [10, 20] 5 rfl
    (List.Forall₂.cons rfl (List.Forall₂.cons rfl List.Forall₂.nil)) rfl
    (by decide) (by decide) (by decide)
  have h2 := totalPages_eq_ceil (constDB [3, 4] none (.ok 6)) "SELECT id, name FROM users"
    [] 2 2 scanTen ⟨[3, 4], none⟩ [30, 40] 6 rfl
    (List.Forall₂.cons rfl (List.Forall₂.cons rfl List.Forall₂.nil)) rfl
    (by decide) (by decide) (by decide)
  have h3 := totalPages_eq_ceil (constDB [] none (.ok 0)) "SELECT id, name FROM users"
    [] 1 10 scanTen ⟨[], none⟩ [] 0 rfl List.Forall₂.nil rfl
    (by decide) (by decide) (by decide)
  rw [c1] at h1
  rw [c2] at h2
  rw [c3] at h3
  exact ⟨h1, h2, h3⟩

/-- C2 (failing input): for the query string `?page=3&limit=abc` the function returns
`(3, 0)`, not `(3, 10)`: the value `0` that `Atoi` returns next to its error is assigned to
`limit` and replaces the default.  Likewise `?page=x&limit=7` gives `(0, 7)`, not `(1, 7)`.
Only an empty value, as in `?page=3&limit=`, leaves the default in place. -/
theorem unparseable_limit_gives_zero :
    GetPageAndLimitParams (queryOf (some "3") (some "abc")) = (3, 0) ∧
    Atoi "abc" = (0, some NumError.ErrSyntax) ∧
    GetPageAndLimitParams (queryOf (some "x") (some "7")) = (0, 7) ∧
    GetPageAndLimitParams (queryOf (some "3") (some "")) = (3, 10) := by
  decide

/-- C3: when each of `page` and `limit` is either absent from the query string or present with
a text denoting an integer, `GetPageAndLimitParams` returns for each the default (1 for
`page`, 10 for `limit`) when absent and the integer denoted when present, whatever its sign;
with both absent the result is `(1, 10)`. -/
theorem params_default_or_parsed (q : Values) (p l : Option Int)
    (hp : ParamIs q "page" p) (hl : ParamIs q "limit" l) :
    GetPageAndLimitParams q = (p.getD 1, l.getD 10) ∧
    (p = none → l = none → GetPageAndLimitParams q = (1, 10)) := by
  have h : GetPageAndLimitParams q = (p.getD 1, l.getD 10) := by
    unfold GetPageAndLimitParams
    simp only
    rw [param_value q "page" p 1 hp, param_value q "limit" l 10 hl]
  refine ⟨h, ?_⟩
  intro h1 h2
  rw [h, h1, h2]
  rfl

/-- C3 (witness): `?page=0&limit=-5` gives `(0, -5)`, zero and negative values being
returned as they are. -/
theorem params_default_or_parsed_witness :
    GetPageAndLimitParams (queryOf (some "0") (some "-5")) = (0, -5) :=
  (params_default_or_parsed (queryOf (some "0") (some "-5")) (some 0) (some (-5))
    ⟨"0", [], by decide, by decide⟩ ⟨"-5", [], by decide, by decide⟩).1

/-- C4: the first effect of every call of `QueryPaginated` is the execution of the query with
text `query ++ " OFFSET $" ++ decimal(n+1) ++ " LIMIT $" ++ decimal(n+2)`, `n` the number of
`args`, and bind parameters `args ++ [offset, limit]`, where `offset` is `(page - 1) * limit`
in Go's `int` arithmetic, which is the mathematical product whenever that fits `int`. -/
theorem first_query_is_paged {α Row T Err : Type} (db : DB α Row Err) (query : String)
    (args : List (Arg α)) (page limit : Int) (scan : Row → Except Err T) :
    (QueryPaginated db query args page limit scan).trace.head? =
      some (.query
        (query ++ " OFFSET $" ++ toString (args.length + 1) ++ " LIMIT $"
          ++ toString (args.length + 2))
        (args ++ [Arg.int (offset page limit), Arg.int limit])) ∧
    offset page limit = wrapInt (wrapInt (page - 1) * limit) ∧
    (minInt ≤ page - 1 → page - 1 ≤ maxInt → minInt ≤ (page - 1) * limit →
      (page - 1) * limit ≤ maxInt → offset page limit = (page - 1) * limit) := by
  refine ⟨?_, rfl, ?_⟩
  · have htext : query ++ " OFFSET $" ++ toString (args.length + 1) ++ " LIMIT $"
        ++ toString (args.length + 2) = formattedQuery query args.length := by
      simp [formattedQuery, String.append_assoc]
    rw [htext]
    obtain ⟨scans, h | h | h⟩ := trace_shape db query args page limit scan <;>
      rw [h] <;> rfl
  · intro h1 h2 h3 h4
    unfold offset goMul goSub
    rw [wrapInt_of_inRange (page - 1) h1 h2, wrapInt_of_inRange _ h3 h4]

/-- C4 (witness): with no args, `page = 2` and `limit = 2` the first query has text
`q ++ " OFFSET $1 LIMIT $2"` and bind parameters `[2, 2]`. -/
theorem first_query_is_paged_witness :
    (QueryPaginated (constDB [3, 4] none (.ok 6)) "SELECT id, name FROM users" [] 2 2
        scanTen).trace.head? =
      some (.query "SELECT id, name FROM users OFFSET $1 LIMIT $2" [Arg.int 2, Arg.int 2]) := by
  have h := first_query_is_paged (constDB [3, 4] none (.ok 6)) "SELECT id, name FROM users"
    [] 2 2 scanTen
  have ho : offset 2 2 = 2 := h.2.2 (by decide) (by decide) (by decide) (by decide)
  rw [h.1, ho]
  decide

/-- C5: whenever a call of `QueryPaginated` executes the count query, its text is the
caller's `query` embedded verbatim in the source's literal, which is
`"SELECT COUNT(*) FROM ( " ++ query ++ " ) AS subquery"` up to whitespace, and its bind
parameters are the caller's `args`, of the original length, without `offset` and `limit`. -/
theorem count_query_text_and_args {α Row T Err : Type} (db : DB α Row Err) (query : String)
    (args : List (Arg α)) (page limit : Int) (scan : Row → Except Err T)
    (text : String) (a : List (Arg α))
    (h : Event.queryRow text a ∈ (QueryPaginated db query args page limit scan).trace) :
    text = "\n\t\tSELECT COUNT(*) FROM (\n\t\t\t" ++ query ++ "\n\t\t) AS subquery\n\t" ∧
    EqUpToWhitespace text ("SELECT COUNT(*) FROM ( " ++ query ++ " ) AS subquery") ∧
    a = args ∧ a.length = args.length := by
  obtain ⟨ht, ha, _⟩ := queryRow_mem_trace db query args page limit scan text a h
  subst ht
  subst ha
  refine ⟨rfl, ?_, rfl, rfl⟩
  unfold EqUpToWhitespace
  rw [tokens_totalQuery, tokens_spec_text]

/-- C5 (witness): a call with one bind parameter that reaches the count query. -/
theorem count_query_text_and_args_witness :
    Event.queryRow
        "\n\t\tSELECT COUNT(*) FROM (\n\t\t\tSELECT id FROM users WHERE org = $1\n\t\t) AS subquery\n\t"
        [Arg.val "acme"] ∈
      (QueryPaginated (constDB [1] none (.ok 5)) "SELECT id FROM users WHERE org = $1"
        [Arg.val "acme"] 1 2 scanTen).trace ∧
    EqUpToWhitespace
      "\n\t\tSELECT COUNT(*) FROM (\n\t\t\tSELECT id FROM users WHERE org = $1\n\t\t) AS subquery\n\t"
      ("SELECT COUNT(*) FROM ( " ++ "SELECT id FROM users WHERE org = $1" ++ " ) AS subquery") :=
  ⟨by decide,
    (count_query_text_and_args (constDB [1] none (.ok 5)) "SELECT id FROM users WHERE org = $1"
      [Arg.val "acme"] 1 2 scanTen
      "\n\t\tSELECT COUNT(*) FROM (\n\t\t\tSELECT id FROM users WHERE org = $1\n\t\t) AS subquery\n\t"
      [Arg.val "acme"] (by decide)).2.1⟩

/-- C6: when the paged query returned a row stream and `decode` fails with error `e` on a row,
the first such row being `r` (every row of `pre`, the rows before it, decodes), then
`QueryPaginated` returns a nil page together with exactly `e`; the effects of the call are the
paged query, one `decode` per row of `pre`, the `decode` of `r` and the closing of the stream:
`decode` is not invoked on the rows `post` after `r`, and no count query is executed. -/
theorem decode_error_aborts {α Row T Err : Type} (db : DB α Row Err) (query : String)
    (args : List (Arg α)) (page limit : Int) (scan : Row → Except Err T)
    (rows : Rows Row Err) (pre : List Row) (r : Row) (post : List Row) (e : Err)
    (hq : db.QueryContext (formattedQuery query args.length) (argsWithLimit args page limit)
      = .ok rows)
    (hrows : rows.pending = pre ++ r :: post)
    (hpre : ∀ x ∈ pre, ∃ t, scan x = .ok t) (hr : scan r = .error e) :
    (QueryPaginated db query args page limit scan).outcome = .returned none (some e) ∧
    (QueryPaginated db query args page limit scan).trace =
      .query (formattedQuery query args.length) (argsWithLimit args page limit) ::
        (pre ++ [r]).map Event.scan ++ [.close] ∧
    (∀ text a, Event.queryRow text a ∉ (QueryPaginated db query args page limit scan).trace) := by
  obtain ⟨items, hitems⟩ := forall₂_of_forall_ok scan pre hpre
  have h := run_scan_error db query args page limit scan rows pre r post items e hq hrows
    hitems hr
  rw [h]
  refine ⟨rfl, rfl, ?_⟩
  intro text a hmem
  simp at hmem

/-- C6 (witness): rows `1, 0, 2` with a decoder failing on `0`: the call returns the decode
error, row `2` is never decoded and the count query is not executed. -/
theorem decode_error_aborts_witness :
    (QueryPaginated (constDB [1, 0, 2] none (.ok 3)) "SELECT id FROM users" [] 1 10
        scanTen).outcome = .returned none (some "Scan error") ∧
    (QueryPaginated (constDB [1, 0, 2] none (.ok 3)) "SELECT id FROM users" [] 1 10
        scanTen).trace =
      [.query "SELECT id FROM users OFFSET $1 LIMIT $2" [Arg.int 0, Arg.int 10],
        .scan 1, .scan 0, .close] := by
  have h := decode_error_aborts (constDB [1, 0, 2] none (.ok 3)) "SELECT id FROM users" [] 1 10
    scanTen ⟨[1, 0, 2], none⟩ [1] 0 [2] "Scan error" rfl rfl
    (by intro x hx; simp at hx; subst hx; exact ⟨10, rfl⟩) rfl
  refine ⟨h.1, ?_⟩
  rw [h.2.1]
  decide

/-- C7 (failing input): the paged query delivers one row and then reports a stream error, the
count query succeeds: `QueryPaginated` returns a non-nil page together with a non-nil error. -/
theorem page_returned_with_error :
    (QueryPaginated (constDB [1] (some "connection reset") (.ok 5)) "SELECT id FROM users" []
        1 2 scanTen).outcome
      = .returned (some ⟨some [10], 1, 2, 5, 3⟩) (some "connection reset") := by
  decide

/-- C8: when the paged query, every decode and the count query succeed and `limit` is not
zero, the page returned has `Page` and `Limit` equal to the caller's `page` and `limit`,
`Total` equal to the value scanned from the count query, and `Items` a non-nil slice holding
the decode results of the rows of the paged query, one per row and in row order (empty when
there are no rows); so `len(Items)` is the number of rows, and at most `limit` when the
engine returned at most `limit` rows. -/
theorem page_fields {α Row T Err : Type} (db : DB α Row Err) (query : String)
    (args : List (Arg α)) (page limit : Int) (scan : Row → Except Err T)
    (rows : Rows Row Err) (items : List T) (total : Int)
    (hq : db.QueryContext (formattedQuery query args.length) (argsWithLimit args page limit)
      = .ok rows)
    (hs : List.Forall₂ (fun r t => scan r = .ok t) rows.pending items)
    (hc : db.QueryRowContext (totalQuery query) args = .ok total)
    (hl : limit ≠ 0) :
    ∃ pg, (QueryPaginated db query args page limit scan).outcome
        = .returned (some pg) rows.lasterr ∧
      pg.Page = page ∧ pg.Limit = limit ∧ pg.Total = total ∧ pg.Items = some items ∧
      (rows.pending = [] → pg.Items = some []) ∧
      pg.Items.len = rows.pending.length ∧
      ((rows.pending.length : Int) ≤ limit → (pg.Items.len : Int) ≤ limit) := by
  cases hd : goDiv (goSub (goAdd total limit) 1) limit with
  | none => exact absurd ((goDiv_eq_none_iff _ _).mp hd) hl
  | some tp =>
    refine ⟨⟨some items, page, limit, total, tp⟩, ?_, rfl, rfl, rfl, rfl, ?_, ?_, ?_⟩
    · rw [run_page db query args page limit scan rows items total tp hq hs hc hd]
    · intro hnil
      rw [hnil] at hs
      cases hs
      rfl
    · exact hs.length_eq.symm
    · intro hle
      have : Slice.len (some items) = rows.pending.length := hs.length_eq.symm
      rw [this]
      exact hle

/-- C8 (witness): two rows, `page = 2`, `limit = 2`, six rows in total. -/
theorem page_fields_witness :
    ∃ pg, (QueryPaginated (constDB [3, 4] none (.ok 6)) "SELECT id, name FROM users" [] 2 2
        scanTen).outcome = .returned (some pg) none ∧
      pg.Page = 2 ∧ pg.Limit = 2 ∧ pg.Total = 6 ∧ pg.Items = some [30, 40] := by
  obtain ⟨pg, h1, h2, h3, h4, h5, _⟩ :=
    page_fields (constDB [3, 4] none (.ok 6)) "SELECT id, name FROM users" [] 2 2 scanTen
      ⟨[3, 4], none⟩ [30, 40] 6 rfl
      (List.Forall₂.cons rfl (List.Forall₂.cons rfl List.Forall₂.nil)) rfl (by decide)
  exact ⟨pg, h1, h2, h3, h4, h5⟩

/-- C9 (failing input): the row stream of the paged query ends with an iteration error (after
one row): the count query is executed all the same, because `rows.Err()` is consulted only in
the final `return`. -/
theorem count_query_after_stream_error :
    (constDB [1] (some "unexpected EOF") (.ok 5)).QueryContext
        "SELECT id FROM users OFFSET $1 LIMIT $2" [Arg.int 0, Arg.int 2]
      = .ok ⟨[1], some "unexpected EOF"⟩ ∧
    (QueryPaginated (constDB [1] (some "unexpected EOF") (.ok 5)) "SELECT id FROM users" []
        1 2 scanTen).trace =
      [.query "SELECT id FROM users OFFSET $1 LIMIT $2" [Arg.int 0, Arg.int 2],
        .scan 1,
        .queryRow "\n\t\tSELECT COUNT(*) FROM (\n\t\t\tSELECT id FROM users\n\t\t) AS subquery\n\t" [],
        .close] :=
  ⟨rfl, by decide⟩

/-- C10: `QueryPaginated` does not validate `limit`.  With `limit = 0`, whenever the paged
query, every decode and the count query succeed, the division computing `totalPages` has a
zero divisor and the call panics, after both queries were executed, instead of returning;
with any `limit` other than zero the division is defined and the call returns. -/
theorem limit_zero_panics {α Row T Err : Type} (db : DB α Row Err) (query : String)
    (args : List (Arg α)) (page limit : Int) (scan : Row → Except Err T) :
    (limit = 0 → ∀ (rows : Rows Row Err) (total : Int),
      db.QueryContext (formattedQuery query args.length) (argsWithLimit args page limit)
        = .ok rows →
      (∀ r ∈ rows.pending, ∃ t, scan r = .ok t) →
      db.QueryRowContext (totalQuery query) args = .ok total →
      goDiv (goSub (goAdd total limit) 1) limit = none ∧
      (QueryPaginated db query args page limit scan).outcome = .panicked ∧
      (QueryPaginated db query args page limit scan).trace =
        .query (formattedQuery query args.length) (argsWithLimit args page limit) ::
          rows.pending.map Event.scan ++ [.queryRow (totalQuery query) args, .close]) ∧
    (limit ≠ 0 →
      (∀ total : Int, ∃ tp, goDiv (goSub (goAdd total limit) 1) limit = some tp) ∧
      ∃ pg err, (QueryPaginated db query args page limit scan).outcome = .returned pg err) := by
  constructor
  · intro hl rows total hq hs hc
    obtain ⟨items, hitems⟩ := forall₂_of_forall_ok scan rows.pending hs
    have hd : goDiv (goSub (goAdd total limit) 1) limit = none :=
      (goDiv_eq_none_iff _ _).mpr hl
    rw [run_panic db query args page limit scan rows items total hq hitems hc hd]
    exact ⟨hd, rfl, rfl⟩
  · intro hl
    have hdiv : ∀ total : Int, ∃ tp, goDiv (goSub (goAdd total limit) 1) limit = some tp := by
      intro total
      cases hd : goDiv (goSub (goAdd total limit) 1) limit with
      | none => exact absurd ((goDiv_eq_none_iff _ _).mp hd) hl
      | some tp => exact ⟨tp, rfl⟩
    refine ⟨hdiv, ?_⟩
    cases hq : db.QueryContext (formattedQuery query args.length)
        (argsWithLimit args page limit) with
    | error e =>
      rw [run_query_error db query args page limit scan e hq]
      exact ⟨_, _, rfl⟩
    | ok rows =>
      rcases decode_cases scan rows.pending with
        ⟨items, hs⟩ | ⟨pre, r, post, items, e, h1, h2, h3⟩
      · cases hc : db.QueryRowContext (totalQuery query) args with
        | error e =>
          rw [run_count_error db query args page limit scan rows items e hq hs hc]
          exact ⟨_, _, rfl⟩
        | ok total =>
          obtain ⟨tp, hd⟩ := hdiv total
          rw [run_page db query args page limit scan rows items total tp hq hs hc hd]
          exact ⟨_, _, rfl⟩
      · rw [run_scan_error db query args page limit scan rows pre r post items e hq h1 h2 h3]
        exact ⟨_, _, rfl⟩

/-- C10 (witness): with `limit = 0` a call whose queries and decodes all succeed panics after
both queries; with `limit = 2` the same call returns. -/
theorem limit_zero_panics_witness :
    (QueryPaginated (constDB [1, 2] none (.ok 5)) "SELECT id FROM users" [] 1 0
        scanTen).outcome = .panicked ∧
    (QueryPaginated (constDB [1, 2] none (.ok 5)) "SELECT id FROM users" [] 1 0
        scanTen).trace =
      [.query "SELECT id FROM users OFFSET $1 LIMIT $2" [Arg.int 0, Arg.int 0],
        .scan 1, .scan 2,
        .queryRow "\n\t\tSELECT COUNT(*) FROM (\n\t\t\tSELECT id FROM users\n\t\t) AS subquery\n\t" [],
        .close] ∧
    (∃ pg err, (QueryPaginated (constDB [1, 2] none (.ok 5)) "SELECT id FROM users" [] 1 2
        scanTen).outcome = .returned pg err) := by
  have h0 := (limit_zero_panics (constDB [1, 2] none (.ok 5)) "SELECT id FROM users" [] 1 0
    scanTen).1 rfl ⟨[1, 2], none⟩ 5 rfl
    (by intro r hr; simp at hr; rcases hr with h | h <;> subst h <;> exact ⟨_, rfl⟩) rfl
  have h2 := ((limit_zero_panics (constDB [1, 2] none (.ok 5)) "SELECT id FROM users" [] 1 2
    scanTen).2 (by decide)).2
  refine ⟨h0.2.1, ?_, h2⟩
  rw [h0.2.2]
  decide

end Paginator
